import Mathlib

/-!
Formal model of the AS3 schema-validation engine (src/src/main.rs) and its
integration tests (src/src/integration_test.rs).

Modelling conventions:
* Rust `HashMap<String, _>` fields are modelled as association lists
  (`List (String × _)`) with the list order standing for the stable
  iteration order; key lookup is `lookupKey`.
* Rust `i64` is modelled as `Int` (validation only compares, never
  overflows) and `f64` as `ℚ`; the `as f64` widening cast is modelled by
  the exact embedding `i64ToF64`.
* The external regex crate is modelled by an abstract `RegexEngine`
  parameter: `compiles` stands for `Regex::new(_).is_ok()` and `isMatch`
  for compiling the pattern and running `is_match`.
* A Rust `panic!` / `.unwrap()` failure is modelled by `none`; a normal
  return of `Result<(), AS3ValidationError>` is `some` of an `Except`.
-/

/-- Mirror of the Rust enum `AS3Data` (src/src/main.rs lines 6-18). -/
inductive AS3Data where
  | Object (fields : List (String × AS3Data))
  | String (s : String)
  | Map (KeyType : AS3Data) (ValueType : AS3Data)
  | Boolean (b : Bool)
  | Integer (n : Int)
  | Decimal (q : ℚ)
  | List (items : List AS3Data)

/-- Mirror of the Rust enum `AS3Validator` (src/src/main.rs lines 20-32). -/
inductive AS3Validator where
  | Object (fields : List (String × AS3Validator))
  | String (regex : Option String)
  | Integer (minimum : Option Int)
  | Decimal (minimum : Option ℚ)
  | List (itemsType : AS3Validator)

/-- The Rust cast `i64 as f64` (src/src/main.rs lines 65-66), modelled as the
exact embedding of `Int` into `ℚ`.  (The IEEE rounding that the real cast
performs above 2^53 is outside this model.) -/
def i64ToF64 (n : Int) : ℚ := (n : ℚ)

/-- Mirror of the Rust enum `AS3ValidationError` (src/src/main.rs
lines 159-177). -/
inductive AS3ValidationError where
  | TypeError (expected : AS3Validator) (got : AS3Data)
  | MissingKey (key : String)
  | RegexError (word : String) (regex : String)
  | Minimum (number : ℚ) (minimum : ℚ)

/-- Outcome of one call to `validate`: `none` models a process abort
(`panic`), `some` a normal `Result<(), AS3ValidationError>` return. -/
abbrev VRes := Option (Except AS3ValidationError Unit)

/-- Abstract model of the external `regex` crate: `compiles p` models
`Regex::new(p).is_ok()`, and `isMatch p s` models
`Regex::new(p).unwrap().is_match(s)` when `compiles p` holds. -/
structure RegexEngine where
  compiles : String → Bool
  isMatch : String → String → Bool

/-- Key lookup in an association list, modelling `HashMap::get`
(src/src/main.rs line 41). -/
def lookupKey (k : String) : List (String × α) → Option α
  | [] => none
  | (k2, v) :: rest => if k2 = k then some v else lookupKey k rest

/-- Collecting `Vec<Result<(), E>>` into `Result<Vec<()>, E>` keeps the
first error in order (src/src/main.rs lines 51-57 and 108-114). -/
def firstError : List (Except AS3ValidationError Unit) → Except AS3ValidationError Unit
  | [] => .ok ()
  | .error e :: _ => .error e
  | .ok _ :: rest => firstError rest

/-- Forcing a list of possibly-panicking results into a `Vec`
(src/src/main.rs lines 38-49 and 103-106): the whole computation panics
(`none`) as soon as any element panics. -/
def seqAll : List VRes → Option (List (Except AS3ValidationError Unit))
  | [] => some []
  | none :: _ => none
  | some r :: rest => (seqAll rest).map (r :: ·)

/-- The two-phase `.collect::<Vec<_>>()` then
`.collect::<Result<Vec<()>, _>>()` of the Object and List branches of
`validate`. -/
def collectAll (rs : List VRes) : VRes := (seqAll rs).map firstError

mutual

/-- Mirror of `AS3Validator::validate` (src/src/main.rs lines 35-122),
parameterised by the regex engine `E`. -/
def validate (E : RegexEngine) : AS3Validator → AS3Data → VRes
  | .Object validatorInner, .Object dataInner =>
      collectAll (fieldResults E dataInner validatorInner)
  | .Integer minimum, .Integer number =>
      match minimum with
      | none => some (.ok ())
      | some minimum =>
          if number < minimum then
            some (.error (.Minimum (i64ToF64 number) (i64ToF64 minimum)))
          else
            some (.ok ())
  | .Decimal minimum, .Decimal number =>
      match minimum with
      | none => some (.ok ())
      | some minimum =>
          if number < minimum then
            some (.error (.Minimum number minimum))
          else
            some (.ok ())
  | .String regex, .String string =>
      match regex with
      | none => some (.ok ())
      | some regex =>
          if E.compiles regex then
            if E.isMatch regex string then some (.ok ())
            else some (.error (.RegexError string regex))
          else none
  | .List itemsType, .List items =>
      collectAll (itemResults E itemsType items)
  | v, d => some (.error (.TypeError v d))

/-- The per-required-field results of the Object branch, in the
traversal order of the validator (src/src/main.rs lines 38-49). -/
def fieldResults (E : RegexEngine) (dataInner : List (String × AS3Data)) :
    List (String × AS3Validator) → List VRes
  | [] => []
  | (validatorKey, validatorValue) :: rest =>
      (match lookupKey validatorKey dataInner with
       | some valueFromKey => validate E validatorValue valueFromKey
       | none => some (.error (.MissingKey validatorKey))) ::
      fieldResults E dataInner rest

/-- The per-element results of the List branch, in list order
(src/src/main.rs lines 103-106). -/
def itemResults (E : RegexEngine) (itemsType : AS3Validator) :
    List AS3Data → List VRes
  | [] => []
  | item :: rest => validate E itemsType item :: itemResults E itemsType rest

end

/-- The five variant pairings that `validate` matches structurally
(src/src/main.rs lines 37, 59, 72, 85, 100); every other pairing falls
into the catch-all arm at line 117. -/
def matchedPair : AS3Validator → AS3Data → Bool
  | .Object _, .Object _ => true
  | .Integer _, .Integer _ => true
  | .Decimal _, .Decimal _ => true
  | .String _, .String _ => true
  | .List _, .List _ => true
  | _, _ => false

/-- A concrete regex engine used by witnesses: a pattern compiles iff it
is nonempty, and a pattern matches exactly the string equal to it. -/
def sampleEngine : RegexEngine where
  compiles := fun p => !p.isEmpty
  isMatch := fun p s => p == s

/-- The result of validating one required field of an Object validator
(the closure at src/src/main.rs lines 40-48). -/
def fieldResult (E : RegexEngine) (dataInner : List (String × AS3Data))
    (kv : String × AS3Validator) : VRes :=
  match lookupKey kv.1 dataInner with
  | some valueFromKey => validate E kv.2 valueFromKey
  | none => some (.error (.MissingKey kv.1))

mutual

/-- Every regex pattern declared anywhere in a validator tree compiles
under the engine `E` (the precondition under which the `unwrap` at
src/src/main.rs line 89 cannot fire). -/
def patternsOk (E : RegexEngine) : AS3Validator → Bool
  | .Object fields => patternsOkFields E fields
  | .String regex =>
      match regex with
      | none => true
      | some r => E.compiles r
  | .Integer _ => true
  | .Decimal _ => true
  | .List itemsType => patternsOk E itemsType

/-- Conjunction of `patternsOk` over the fields of an Object validator. -/
def patternsOkFields (E : RegexEngine) : List (String × AS3Validator) → Bool
  | [] => true
  | (_, v) :: rest => patternsOk E v && patternsOkFields E rest

end

/-- Discriminates the `Integer` variant of `AS3Data`. -/
def AS3Data.isIntegerVariant : AS3Data → Bool
  | .Integer _ => true
  | _ => false

/-- Model of `serde_json::Number`: the external parser stores a number
either in an integer representation (`i64`/`u64`, merged here into `Int`
with the invariant `-2^63 ≤ n < 2^64`) or as a 64-bit float (modelled as
`ℚ`). -/
inductive JNumber where
  | int (n : Int)
  | float (q : ℚ)

/-- Model of `serde_json::Number::as_i64`: `some` exactly when the number
is stored in an integer representation that fits `i64`; always `none` on
the float representation, regardless of its numeric value. -/
def JNumber.asI64 : JNumber → Option Int
  | .int n => if -(2 ^ 63) ≤ n ∧ n ≤ 2 ^ 63 - 1 then some n else none
  | .float _ => none

/-- Model of `serde_json::Number::as_f64` (total on both
representations; the integer-to-float conversion is modelled exactly,
as in `i64ToF64`). -/
def JNumber.asF64 : JNumber → ℚ
  | .int n => (n : ℚ)
  | .float q => q

/-- Model of `serde_json::Value`: the generic external value tree of
spec section 6. -/
inductive Json where
  | object (fields : List (String × Json))
  | array (elems : List Json)
  | str (s : String)
  | num (n : JNumber)
  | bool (b : Bool)
  | null

mutual

/-- Mirror of `impl From<&serde_json::Value> for AS3Data`
(src/src/main.rs lines 133-157); `none` models the `panic!` on `Null`
at line 154. -/
def AS3Data.fromJson : Json → Option AS3Data
  | .object fields => (fromJsonFields fields).map AS3Data.Object
  | .array elems => (fromJsonList elems).map AS3Data.List
  | .str s => some (.String s)
  | .num inner =>
      match inner.asI64 with
      | some number => some (.Integer number)
      | none => some (.Decimal inner.asF64)
  | .bool b => some (.Boolean b)
  | .null => none

/-- Pointwise `AS3Data.fromJson` over the entries of an external object. -/
def fromJsonFields : List (String × Json) → Option (List (String × AS3Data))
  | [] => some []
  | (k, v) :: rest =>
      match AS3Data.fromJson v with
      | none => none
      | some d => (fromJsonFields rest).map ((k, d) :: ·)

/-- Pointwise `AS3Data.fromJson` over the elements of an external array. -/
def fromJsonList : List Json → Option (List AS3Data)
  | [] => some []
  | v :: rest =>
      match AS3Data.fromJson v with
      | none => none
      | some d => (fromJsonList rest).map (d :: ·)

end

mutual

/-- A `null` node occurs somewhere in the external value tree. -/
def Json.containsNull : Json → Bool
  | .object fields => Json.containsNullFields fields
  | .array elems => Json.containsNullList elems
  | .null => true
  | .str _ => false
  | .num _ => false
  | .bool _ => false

/-- Disjunction of `Json.containsNull` over object entries. -/
def Json.containsNullFields : List (String × Json) → Bool
  | [] => false
  | (_, v) :: rest => Json.containsNull v || Json.containsNullFields rest

/-- Disjunction of `Json.containsNull` over array elements. -/
def Json.containsNullList : List Json → Bool
  | [] => false
  | v :: rest => Json.containsNull v || Json.containsNullList rest

end

/-- The wording of the claim itself for the numeric conversion policy (spec
section 4.1), stated independently of the source: the external number is
representable as a 64-bit signed integer with no fractional part. -/
def specRepresentableAsI64 : JNumber → Bool
  | .int n => decide (-(2 ^ 63) ≤ n ∧ n ≤ 2 ^ 63 - 1)
  | .float q => decide (q.den = 1 ∧ -(2 ^ 63) ≤ q.num ∧ q.num ≤ 2 ^ 63 - 1)

/-- Modelled from the spec: the declarative schema configuration document
(spec sections 4.4 and 6) — a generic nested mapping/scalar document.
The Schema Builder of the repository (`AS3Validator::from(&serde_yaml::Value)`,
called by src/src/integration_test.rs line 311) is not among the source
files under src/, so the document shape is taken from the spec and from
the YAML literal in the integration test. -/
inductive ConfigDoc where
  | map (entries : List (String × ConfigDoc))
  | str (s : String)
  | int (n : Int)
  | dec (q : ℚ)

/-- The reserved top-level key identifying the entry node of the schema
(src/src/integration_test.rs line 289). -/
def rootMarker : String := "Root"

/-- The reserved discriminator key naming the type of a schema node
(src/src/integration_test.rs line 290). -/
def discriminatorKey : String := "+Type"

mutual

/-- Modelled from the spec: building one schema node (spec section 4.4
steps 2-6); the builder itself is repository code missing from src/. -/
def buildNode : ConfigDoc → Except String AS3Validator
  | .map entries =>
      match lookupKey discriminatorKey entries with
      | some (.str "Object") =>
          match buildFields entries with
          | .ok fields => .ok (.Object fields)
          | .error e => .error e
      | some (.str "String") =>
          match lookupKey "regex" entries with
          | none => .ok (.String none)
          | some (.str r) => .ok (.String (some r))
          | some _ => .error "the regex constraint must be a string"
      | some (.str "Integer") =>
          match lookupKey "minimum" entries with
          | none => .ok (.Integer none)
          | some (.int n) => .ok (.Integer (some n))
          | some _ => .error "the minimum constraint must be an integer"
      | some (.str "Decimal") =>
          match lookupKey "minimum" entries with
          | none => .ok (.Decimal none)
          | some (.int n) => .ok (.Decimal (some (n : ℚ)))
          | some (.dec q) => .ok (.Decimal (some q))
          | some _ => .error "the minimum constraint must be numeric"
      | some (.str "List") =>
          match buildFields entries with
          | .error e => .error e
          | .ok [itemEntry] => .ok (.List itemEntry.2)
          | .ok _ => .error "a List node must supply exactly one item schema"
      | some (.str _) => .error "unrecognized type name"
      | some _ => .error "the type discriminator must be a string"
      | none => .error "schema node without a type discriminator"
  | _ => .error "a schema node must be a mapping"

/-- Modelled from the spec: the non-discriminator entries of an Object
node, each built recursively into a required-field validator (spec
section 4.4 step 3). -/
def buildFields : List (String × ConfigDoc) →
    Except String (List (String × AS3Validator))
  | [] => .ok []
  | (k, v) :: rest =>
      if k = discriminatorKey then buildFields rest
      else
        match buildNode v with
        | .error e => .error e
        | .ok child =>
            match buildFields rest with
            | .error e => .error e
            | .ok others => .ok ((k, child) :: others)

end

/-- Modelled from the spec: `build(config) -> Result<Validator, BuildError>`
(spec section 4.4 steps 1-2): the top level must be a mapping containing
the root-marker entry, whose value is built as the root schema node. -/
def build : ConfigDoc → Except String AS3Validator
  | .map entries =>
      match lookupKey rootMarker entries with
      | some node => buildNode node
      | none => .error "the top-level mapping must contain the root marker"
  | _ => .error "the top level must be a mapping"

theorem fieldResults_eq_map (E : RegexEngine) (dataInner : List (String × AS3Data))
    (vfs : List (String × AS3Validator)) :
    fieldResults E dataInner vfs = vfs.map (fieldResult E dataInner) := by
  induction vfs with
  | nil => simp [fieldResults]
  | cons kv rest ih => cases kv; simp [fieldResults, fieldResult, ih]

theorem itemResults_eq_map (E : RegexEngine) (itemsType : AS3Validator)
    (items : List AS3Data) :
    itemResults E itemsType items = items.map (validate E itemsType) := by
  induction items with
  | nil => simp [itemResults]
  | cons d rest ih => simp [itemResults, ih]

theorem seqAll_eq_none_iff (rs : List VRes) : seqAll rs = none ↔ none ∈ rs := by
  induction rs with
  | nil => simp [seqAll]
  | cons r rest ih =>
    cases r with
    | none => simp [seqAll]
    | some x =>
      cases h : seqAll rest <;> simp [seqAll, h] <;> simp [h] at ih <;>
        simp [ih]

theorem collectAll_eq_none_iff (rs : List VRes) : collectAll rs = none ↔ none ∈ rs := by
  rw [← seqAll_eq_none_iff]
  cases h : seqAll rs <;> simp [collectAll, h]

theorem collectAll_cons_ok (r : List VRes) :
    collectAll (some (.ok ()) :: r) = collectAll r := by
  cases h : seqAll r <;> simp [collectAll, seqAll, h, firstError]

theorem collectAll_cons_error_panic (e : AS3ValidationError) (r : List VRes)
    (hm : none ∈ r) : collectAll (some (.error e) :: r) = none := by
  have h := (seqAll_eq_none_iff r).mpr hm
  simp [collectAll, seqAll, h]

theorem collectAll_cons_error_clean (e : AS3ValidationError) (r : List VRes)
    (hm : none ∉ r) : collectAll (some (.error e) :: r) = some (.error e) := by
  cases h : seqAll r with
  | none => exact absurd ((seqAll_eq_none_iff r).mp h) hm
  | some es => simp [collectAll, seqAll, h, firstError]

theorem collectAll_eq_ok_iff (rs : List VRes) :
    collectAll rs = some (.ok ()) ↔ ∀ r ∈ rs, r = some (.ok ()) := by
  induction rs with
  | nil => simp [collectAll, seqAll, firstError]
  | cons r rest ih =>
    cases r with
    | none => simp [collectAll, seqAll]
    | some x =>
      cases x with
      | ok u => cases u; rw [collectAll_cons_ok]; simp [ih]
      | error e =>
        constructor
        · intro h
          by_cases hm : none ∈ rest
          · rw [collectAll_cons_error_panic e rest hm] at h; cases h
          · rw [collectAll_cons_error_clean e rest hm] at h; cases h
        · intro h
          exact absurd (h (some (.error e)) (by simp)) (by simp)

theorem collectAll_eq_error (rs : List VRes) (e : AS3ValidationError)
    (h : collectAll rs = some (.error e)) :
    ∃ pre r post, rs = pre ++ r :: post ∧ r = some (.error e) ∧
      ∀ r2 ∈ pre, r2 = some (.ok ()) := by
  induction rs with
  | nil => simp [collectAll, seqAll, firstError] at h
  | cons r rest ih =>
    cases r with
    | none => simp [collectAll, seqAll] at h
    | some x =>
      cases x with
      | ok u =>
        cases u
        rw [collectAll_cons_ok] at h
        obtain ⟨pre, r, post, hsplit, hr, hpre⟩ := ih h
        refine ⟨some (.ok ()) :: pre, r, post, by simp [hsplit], hr, ?_⟩
        intro r2 hr2
        rcases List.mem_cons.mp hr2 with h2 | h2
        · exact h2
        · exact hpre r2 h2
      | error e2 =>
        by_cases hm : none ∈ rest
        · rw [collectAll_cons_error_panic e2 rest hm] at h; cases h
        · rw [collectAll_cons_error_clean e2 rest hm] at h
          have he : e2 = e := by
            have := Option.some.inj h
            exact (Except.error.inj this)
          exact ⟨[], some (.error e2), rest, by simp, by simp [he], by simp⟩

/-- C1: for every validator and value whose variants do not form one of
the five matched pairs (Object/Object, Integer/Integer, Decimal/Decimal,
String/String, List/List), `validate` returns `TypeError` carrying copies
of the validator and the value; in particular an Integer validator
applied to a Decimal value yields `TypeError`, not `Minimum`, even when
the decimal number would numerically satisfy the declared minimum. -/
theorem c1_type_mismatch :
    (∀ (E : RegexEngine) (v : AS3Validator) (d : AS3Data),
      matchedPair v d = false →
      validate E v d = some (.error (.TypeError v d))) ∧
    (∀ (E : RegexEngine) (m : Int) (q : ℚ), i64ToF64 m ≤ q →
      validate E (.Integer (some m)) (.Decimal q) =
        some (.error (.TypeError (.Integer (some m)) (.Decimal q)))) := by
  constructor
  · intro E v d h
    cases v <;> cases d <;> simp_all [validate, matchedPair]
  · intro E m q _
    simp [validate]

theorem c1_type_mismatch_witness :
    validate sampleEngine (.Integer (some 20)) (.Decimal (20.18 : ℚ)) =
      some (.error (.TypeError (.Integer (some 20)) (.Decimal (20.18 : ℚ)))) :=
  c1_type_mismatch.2 sampleEngine 20 (20.18 : ℚ) (by norm_num [i64ToF64])

/-- C3: for every Integer validator with a declared minimum applied to an
Integer value (and likewise Decimal/Decimal), the minimum is inclusive: a
value greater than or equal to the minimum passes (in particular one
exactly equal to it), and a value strictly below it fails with
`Minimum{number, minimum}` carrying the exact compared values, widened by
`i64ToF64` in the Integer case. -/
theorem c3_minimum_inclusive :
    (∀ (E : RegexEngine) (m n : Int),
      (m ≤ n → validate E (.Integer (some m)) (.Integer n) = some (.ok ())) ∧
      (n < m → validate E (.Integer (some m)) (.Integer n) =
        some (.error (.Minimum (i64ToF64 n) (i64ToF64 m))))) ∧
    (∀ (E : RegexEngine) (qm qn : ℚ),
      (qm ≤ qn → validate E (.Decimal (some qm)) (.Decimal qn) = some (.ok ())) ∧
      (qn < qm → validate E (.Decimal (some qm)) (.Decimal qn) =
        some (.error (.Minimum qn qm)))) := by
  constructor
  · intro E m n
    constructor
    · intro h; simp [validate, not_lt.mpr h]
    · intro h; simp [validate, h]
  · intro E qm qn
    constructor
    · intro h; simp [validate, not_lt.mpr h]
    · intro h; simp [validate, h]

theorem c3_minimum_inclusive_witness :
    validate sampleEngine (.Integer (some 20)) (.Integer 20) = some (.ok ()) :=
  (c3_minimum_inclusive.1 sampleEngine 20 20).1 (le_refl 20)

/-- C9: `validate` is deterministic — two calls with the same regex
engine, the same validator tree and the same value tree return the same
result. -/
theorem c9_deterministic (E : RegexEngine) (v : AS3Validator) (d : AS3Data)
    (r1 r2 : VRes) (h1 : validate E v d = r1) (h2 : validate E v d = r2) :
    r1 = r2 :=
  h1.symm.trans h2

theorem c9_deterministic_witness :
    (some (Except.ok ()) : VRes) = some (Except.ok ()) :=
  c9_deterministic sampleEngine (.String none) (.String "x") _ _
    (by simp [validate]) (by simp [validate])

mutual

theorem validate_no_panic (E : RegexEngine) :
    ∀ (v : AS3Validator), patternsOk E v = true → ∀ d, validate E v d ≠ none
  | .Object vfs, h, d => by
    cases d with
    | Object dfs =>
      intro hc
      simp only [validate] at hc
      rw [collectAll_eq_none_iff] at hc
      exact fieldResults_no_panic E vfs (by simpa [patternsOk] using h) dfs hc
    | String s => simp [validate]
    | Map k v2 => simp [validate]
    | Boolean b => simp [validate]
    | Integer n => simp [validate]
    | Decimal q => simp [validate]
    | List l => simp [validate]
  | .String regex, h, d => by
    cases d <;> try simp [validate]
    case String s =>
      cases regex with
      | none => simp [validate]
      | some r =>
        have hr : E.compiles r = true := by simpa [patternsOk] using h
        cases hm : E.isMatch r s <;> simp [validate, hr, hm]
  | .Integer m, h, d => by
    cases d <;> try simp [validate]
    case Integer n =>
      cases m with
      | none => simp [validate]
      | some m0 => by_cases hlt : n < m0 <;> simp [validate, hlt]
  | .Decimal m, h, d => by
    cases d <;> try simp [validate]
    case Decimal q =>
      cases m with
      | none => simp [validate]
      | some m0 => by_cases hlt : q < m0 <;> simp [validate, hlt]
  | .List t, h, d => by
    cases d with
    | List items =>
      intro hc
      simp only [validate] at hc
      rw [collectAll_eq_none_iff] at hc
      exact itemResults_no_panic E t (by simpa [patternsOk] using h) items hc
    | Object dfs => simp [validate]
    | String s => simp [validate]
    | Map k v2 => simp [validate]
    | Boolean b => simp [validate]
    | Integer n => simp [validate]
    | Decimal q => simp [validate]

theorem fieldResults_no_panic (E : RegexEngine) :
    ∀ (vfs : List (String × AS3Validator)), patternsOkFields E vfs = true →
      ∀ dfs, none ∉ fieldResults E dfs vfs
  | [], _, dfs => by simp [fieldResults]
  | (k, v) :: rest, h, dfs => by
    have h1 : patternsOk E v = true := by
      simp [patternsOkFields, Bool.and_eq_true] at h; exact h.1
    have h2 : patternsOkFields E rest = true := by
      simp [patternsOkFields, Bool.and_eq_true] at h; exact h.2
    intro hc
    simp only [fieldResults, List.mem_cons] at hc
    rcases hc with hc | hc
    · cases hl : lookupKey k dfs with
      | some d0 =>
        rw [hl] at hc
        exact validate_no_panic E v h1 d0 hc.symm
      | none => rw [hl] at hc; cases hc
    · exact fieldResults_no_panic E rest h2 dfs hc

theorem itemResults_no_panic (E : RegexEngine) (t : AS3Validator) :
    patternsOk E t = true → ∀ (items : List AS3Data), none ∉ itemResults E t items
  | h, [] => by simp [itemResults]
  | h, item :: rest => by
    intro hc
    simp only [itemResults, List.mem_cons] at hc
    rcases hc with hc | hc
    · exact validate_no_panic E t h item hc.symm
    · exact itemResults_no_panic E t h rest hc

end

/-- C6: for every String validator applied to a String value, no declared
pattern means every string is accepted; a declared, compilable pattern
rejects a non-matching string with `RegexError` carrying exactly the
failing string and exactly the declared pattern text, and accepts a
matching string. -/
theorem c6_regex :
    (∀ (E : RegexEngine) (s : String),
      validate E (.String none) (.String s) = some (.ok ())) ∧
    (∀ (E : RegexEngine) (p s : String), E.compiles p = true →
      (E.isMatch p s = false →
        validate E (.String (some p)) (.String s) =
          some (.error (.RegexError s p))) ∧
      (E.isMatch p s = true →
        validate E (.String (some p)) (.String s) = some (.ok ()))) := by
  refine ⟨fun E s => by simp [validate], fun E p s hc => ⟨fun hm => ?_, fun hm => ?_⟩⟩
  · simp [validate, hc, hm]
  · simp [validate, hc, hm]

theorem c6_regex_witness :
    validate sampleEngine (.String (some "Aa")) (.String "ford") =
      some (.error (.RegexError "ford" "Aa")) :=
  (c6_regex.2 sampleEngine "Aa" "ford" (by decide)).1 (by decide)

/-- C10: when every pattern declared in the validator tree compiles,
`validate` never aborts (the `unwrap` on pattern compilation is
unreachable); a String validator whose declared pattern does not compile
makes `validate` on a String value abort (`none`) instead of returning a
validation error. -/
theorem c10_invalid_pattern_abort :
    (∀ (E : RegexEngine) (v : AS3Validator) (d : AS3Data),
      patternsOk E v = true → validate E v d ≠ none) ∧
    (∀ (E : RegexEngine) (p s : String), E.compiles p = false →
      validate E (.String (some p)) (.String s) = none) := by
  constructor
  · intro E v d h
    exact validate_no_panic E v h d
  · intro E p s hc
    simp [validate, hc]

theorem c10_invalid_pattern_abort_witness :
    validate sampleEngine (.String (some "")) (.String "ford") = none :=
  c10_invalid_pattern_abort.2 sampleEngine "" "ford" (by decide)

theorem validate_object_eq (E : RegexEngine) (vfs : List (String × AS3Validator))
    (dfs : List (String × AS3Data)) :
    validate E (.Object vfs) (.Object dfs) =
      collectAll (vfs.map (fieldResult E dfs)) := by
  simp [validate, fieldResults_eq_map]

theorem collectAll_map_eq_error {α : Type} (f : α → VRes) (l : List α)
    (e : AS3ValidationError) (h : collectAll (l.map f) = some (.error e)) :
    ∃ pre x post, l = pre ++ x :: post ∧ f x = some (.error e) ∧
      ∀ y ∈ pre, f y = some (.ok ()) := by
  induction l with
  | nil => simp [collectAll, seqAll, firstError] at h
  | cons a rest ih =>
    rw [List.map_cons] at h
    cases hf : f a with
    | none => rw [hf] at h; simp [collectAll, seqAll] at h
    | some x =>
      cases x with
      | ok u =>
        cases u
        rw [hf, collectAll_cons_ok] at h
        obtain ⟨pre, x, post, hsplit, hx, hpre⟩ := ih h
        refine ⟨a :: pre, x, post, by simp [hsplit], hx, ?_⟩
        intro y hy
        rcases List.mem_cons.mp hy with h2 | h2
        · rw [h2]; exact hf
        · exact hpre y h2
      | error e2 =>
        rw [hf] at h
        by_cases hm : none ∈ rest.map f
        · rw [collectAll_cons_error_panic e2 _ hm] at h; cases h
        · rw [collectAll_cons_error_clean e2 _ hm] at h
          have he : e2 = e := Except.error.inj (Option.some.inj h)
          exact ⟨[], a, rest, by simp, by rw [hf, he], by simp⟩

theorem lookupKey_append_some {α : Type} {k : String} {l1 l2 : List (String × α)}
    {v : α} (h : lookupKey k l1 = some v) : lookupKey k (l1 ++ l2) = some v := by
  induction l1 with
  | nil => simp [lookupKey] at h
  | cons p rest ih =>
    cases p with
    | mk k2 w =>
      by_cases he : k2 = k <;> simp [lookupKey, he] at h ⊢
      · exact h
      · exact ih h

theorem lookupKey_append_none {α : Type} {k : String} {l1 l2 : List (String × α)}
    (h : lookupKey k l1 = none) : lookupKey k (l1 ++ l2) = lookupKey k l2 := by
  induction l1 with
  | nil => simp [lookupKey]
  | cons p rest ih =>
    cases p with
    | mk k2 w =>
      by_cases he : k2 = k <;> simp [lookupKey, he] at h ⊢
      exact ih h

theorem lookupKey_eq_none {α : Type} (l : List (String × α)) (k : String)
    (h : ∀ p ∈ l, p.1 ≠ k) : lookupKey k l = none := by
  induction l with
  | nil => simp [lookupKey]
  | cons p rest ih =>
    cases p with
    | mk k2 w =>
      have hne : k2 ≠ k := h (k2, w) (by simp)
      rw [lookupKey, if_neg hne]
      exact ih fun p hp => h p (by simp [hp])

/-- C2: Object-against-Object validation iterates exactly the required
field names of the validator in traversal (list) order: an absent required name
yields `MissingKey` with that name, a present name is validated
recursively, the overall result is `Ok` exactly when every required field
passes, and a failure returns exactly the single error of the first
failing field in traversal order. -/
theorem c2_object_fail_fast (E : RegexEngine)
    (vfs : List (String × AS3Validator)) (dfs : List (String × AS3Data)) :
    (∀ k v, lookupKey k dfs = none →
      fieldResult E dfs (k, v) = some (.error (.MissingKey k))) ∧
    (∀ k v d, lookupKey k dfs = some d →
      fieldResult E dfs (k, v) = validate E v d) ∧
    (validate E (.Object vfs) (.Object dfs) = some (.ok ()) ↔
      ∀ kv ∈ vfs, fieldResult E dfs kv = some (.ok ())) ∧
    (∀ e, validate E (.Object vfs) (.Object dfs) = some (.error e) →
      ∃ pre kv post, vfs = pre ++ kv :: post ∧
        fieldResult E dfs kv = some (.error e) ∧
        ∀ kv2 ∈ pre, fieldResult E dfs kv2 = some (.ok ())) := by
  refine ⟨?_, ?_, ?_, ?_⟩
  · intro k v hl; simp [fieldResult, hl]
  · intro k v d hl; simp [fieldResult, hl]
  · rw [validate_object_eq, collectAll_eq_ok_iff]
    constructor
    · intro h kv hkv; exact h _ (List.mem_map_of_mem _ hkv)
    · intro h r hr
      obtain ⟨kv, hkv, rfl⟩ := List.mem_map.mp hr
      exact h kv hkv
  · intro e h
    rw [validate_object_eq] at h
    exact collectAll_map_eq_error _ _ _ h

theorem c2_object_fail_fast_witness :
    fieldResult sampleEngine [] ("age", .Integer none) =
      some (.error (.MissingKey "age")) ∧
    validate sampleEngine (.Object []) (.Object []) = some (.ok ()) :=
  ⟨(c2_object_fail_fast sampleEngine [] []).1 "age" (.Integer none)
      (by simp [lookupKey]),
   ((c2_object_fail_fast sampleEngine [] []).2.2.1).mpr (by simp)⟩

/-- C5: for an Object validator whose required fields all validate
successfully against an Object value, appending extra field entries whose
names are not among the required names of the validator never changes the
result of `validate` — extra data fields are never inspected. -/
theorem c5_extra_fields_ignored (E : RegexEngine)
    (vfs : List (String × AS3Validator)) (dfs extra : List (String × AS3Data))
    (_hok : validate E (.Object vfs) (.Object dfs) = some (.ok ()))
    (hextra : ∀ p ∈ extra, ∀ kv ∈ vfs, p.1 ≠ kv.1) :
    validate E (.Object vfs) (.Object (dfs ++ extra)) =
      validate E (.Object vfs) (.Object dfs) := by
  rw [validate_object_eq, validate_object_eq]
  congr 1
  apply List.map_congr_left
  intro kv hkv
  simp only [fieldResult]
  cases hl : lookupKey kv.1 dfs with
  | some d => rw [lookupKey_append_some hl]
  | none =>
    rw [lookupKey_append_none hl,
      lookupKey_eq_none extra kv.1 fun p hp => hextra p hp kv hkv]

theorem c5_extra_fields_ignored_witness :
    validate sampleEngine (.Object [("age", .Integer none)])
        (.Object ([("age", .Integer 5)] ++ [("extra", .Boolean true)])) =
      validate sampleEngine (.Object [("age", .Integer none)])
        (.Object [("age", .Integer 5)]) :=
  c5_extra_fields_ignored sampleEngine [("age", .Integer none)]
    [("age", .Integer 5)] [("extra", .Boolean true)]
    (by simp [validate, fieldResults, lookupKey, collectAll, seqAll, firstError])
    (by simp)

mutual

theorem fromJson_eq_none_iff : ∀ j : Json,
    AS3Data.fromJson j = none ↔ Json.containsNull j = true
  | .object fields => by
    have hf := fromJsonFields_eq_none_iff fields
    simp only [AS3Data.fromJson, Json.containsNull]
    cases h : fromJsonFields fields with
    | none => simp [hf.mp h]
    | some l =>
      have hn : ¬ Json.containsNullFields fields = true := fun hc => by
        rw [hf.mpr hc] at h; cases h
      simp [hn]
  | .array elems => by
    have hl := fromJsonList_eq_none_iff elems
    simp only [AS3Data.fromJson, Json.containsNull]
    cases h : fromJsonList elems with
    | none => simp [hl.mp h]
    | some l =>
      have hn : ¬ Json.containsNullList elems = true := fun hc => by
        rw [hl.mpr hc] at h; cases h
      simp [hn]
  | .str s => by simp [AS3Data.fromJson, Json.containsNull]
  | .num n => by
    cases h : n.asI64 <;> simp [AS3Data.fromJson, Json.containsNull, h]
  | .bool b => by simp [AS3Data.fromJson, Json.containsNull]
  | .null => by simp [AS3Data.fromJson, Json.containsNull]

theorem fromJsonFields_eq_none_iff : ∀ l : List (String × Json),
    fromJsonFields l = none ↔ Json.containsNullFields l = true
  | [] => by simp [fromJsonFields, Json.containsNullFields]
  | (k, v) :: rest => by
    have hv := fromJson_eq_none_iff v
    have hr := fromJsonFields_eq_none_iff rest
    simp only [fromJsonFields, Json.containsNullFields, Bool.or_eq_true]
    cases h : AS3Data.fromJson v with
    | none => simp [hv.mp h]
    | some d =>
      have hnv : ¬ Json.containsNull v = true := fun hc => by
        rw [hv.mpr hc] at h; cases h
      cases h2 : fromJsonFields rest with
      | none => simp [hnv, hr.mp h2]
      | some l2 =>
        have hnr : ¬ Json.containsNullFields rest = true := fun hc => by
          rw [hr.mpr hc] at h2; cases h2
        simp [hnv, hnr]

theorem fromJsonList_eq_none_iff : ∀ l : List Json,
    fromJsonList l = none ↔ Json.containsNullList l = true
  | [] => by simp [fromJsonList, Json.containsNullList]
  | v :: rest => by
    have hv := fromJson_eq_none_iff v
    have hr := fromJsonList_eq_none_iff rest
    simp only [fromJsonList, Json.containsNullList, Bool.or_eq_true]
    cases h : AS3Data.fromJson v with
    | none => simp [hv.mp h]
    | some d =>
      have hnv : ¬ Json.containsNull v = true := fun hc => by
        rw [hv.mpr hc] at h; cases h
      cases h2 : fromJsonList rest with
      | none => simp [hnv, hr.mp h2]
      | some l2 =>
        have hnr : ¬ Json.containsNullList rest = true := fun hc => by
          rw [hr.mpr hc] at h2; cases h2
        simp [hnv, hnr]

end

/-- C4 counterexample: the external number stored in the float
representation with value 20 is representable as a 64-bit signed integer
with no fractional part, yet the conversion produces the Decimal
variant, not the Integer variant. -/
theorem c4_number_conversion_counterexample :
    specRepresentableAsI64 (JNumber.float 20) = true ∧
    AS3Data.fromJson (Json.num (JNumber.float 20)) =
      some (AS3Data.Decimal 20) ∧
    AS3Data.isIntegerVariant (AS3Data.Decimal 20) = false := by
  refine ⟨by norm_num [specRepresentableAsI64], ?_, rfl⟩
  simp [AS3Data.fromJson, JNumber.asI64, JNumber.asF64]

/-- C4 (amended): an external number stored in the integer representation
and within the signed 64-bit range converts to the Integer variant; an
integer-representation number above the signed range, and every
float-representation number (even one with an integral value), converts
to the Decimal variant. -/
theorem c4_number_conversion :
    (∀ n : Int, -(2 ^ 63) ≤ n → n ≤ 2 ^ 63 - 1 →
      AS3Data.fromJson (Json.num (JNumber.int n)) =
        some (AS3Data.Integer n)) ∧
    (∀ n : Int, 2 ^ 63 - 1 < n →
      AS3Data.fromJson (Json.num (JNumber.int n)) =
        some (AS3Data.Decimal (n : ℚ))) ∧
    (∀ q : ℚ, AS3Data.fromJson (Json.num (JNumber.float q)) =
      some (AS3Data.Decimal q)) := by
  refine ⟨fun n h1 h2 => ?_, fun n h => ?_, fun q => ?_⟩
  · have hi : JNumber.asI64 (JNumber.int n) = some n := by
      simp only [JNumber.asI64]
      rw [if_pos ⟨h1, h2⟩]
    simp [AS3Data.fromJson, hi]
  · have hn : ¬ (-(2 ^ 63) ≤ n ∧ n ≤ 2 ^ 63 - 1) := fun hh =>
      absurd hh.2 (not_le.mpr h)
    have hi : JNumber.asI64 (JNumber.int n) = none := by
      simp only [JNumber.asI64]
      rw [if_neg hn]
    simp [AS3Data.fromJson, JNumber.asF64, hi]
  · simp [AS3Data.fromJson, JNumber.asI64, JNumber.asF64]

theorem c4_number_conversion_witness :
    AS3Data.fromJson (Json.num (JNumber.int 20)) =
      some (AS3Data.Integer 20) :=
  c4_number_conversion.1 20 (by norm_num) (by norm_num)

/-- C8 counterexample: an input that is not itself the null external
value but contains one (a one-element array holding null) also makes the
conversion abort, so null inputs are not the only aborting inputs. -/
theorem c8_null_abort_counterexample :
    AS3Data.fromJson (Json.array [Json.null]) = none ∧
    Json.array [Json.null] ≠ Json.null := by
  constructor
  · simp [AS3Data.fromJson, fromJsonList]
  · simp

/-- C8 (amended): the conversion aborts (modelled as `none`) on the null
input and more generally exactly on the inputs in which a null node
occurs; on every null-free input it is total and produces a Value. -/
theorem c8_null_abort :
    AS3Data.fromJson Json.null = none ∧
    ∀ j : Json, (AS3Data.fromJson j = none ↔ Json.containsNull j = true) :=
  ⟨by simp [AS3Data.fromJson], fromJson_eq_none_iff⟩

theorem c8_null_abort_witness :
    AS3Data.fromJson (Json.object [("a", Json.null)]) = none :=
  (c8_null_abort.2 (Json.object [("a", Json.null)])).mpr
    (by simp [Json.containsNull, Json.containsNullFields])

/-- C7: Schema Builder round-trip — building from a configuration whose
root Object declares one String field and one Integer field succeeds, and
the built validator accepts an Object value containing both fields with
matching types, while the same value with the Integer field removed is
rejected with `MissingKey` carrying the name of that field. -/
theorem c7_builder_round_trip (E : RegexEngine) (sName iName : String)
    (hne : sName ≠ iName) (hs : sName ≠ discriminatorKey)
    (hi : iName ≠ discriminatorKey) (s : String) (k : Int) :
    build (.map [(rootMarker,
        .map [(discriminatorKey, .str "Object"),
              (sName, .map [(discriminatorKey, .str "String")]),
              (iName, .map [(discriminatorKey, .str "Integer")])])]) =
      .ok (.Object [(sName, .String none), (iName, .Integer none)]) ∧
    validate E (.Object [(sName, .String none), (iName, .Integer none)])
        (.Object [(sName, .String s), (iName, .Integer k)]) =
      some (.ok ()) ∧
    validate E (.Object [(sName, .String none), (iName, .Integer none)])
        (.Object [(sName, .String s)]) =
      some (.error (.MissingKey iName)) := by
  simp only [discriminatorKey] at hs hi
  refine ⟨?_, ?_, ?_⟩
  · simp [build, buildNode, buildFields, lookupKey, rootMarker, discriminatorKey,
      hs, hi]
  · simp [validate, fieldResults, lookupKey, collectAll, seqAll, firstError, hne,
      Ne.symm hne]
  · simp [validate, fieldResults, lookupKey, collectAll, seqAll, firstError, hne,
      Ne.symm hne]

theorem c7_builder_round_trip_witness :
    build (.map [(rootMarker,
        .map [(discriminatorKey, .str "Object"),
              ("name", .map [(discriminatorKey, .str "String")]),
              ("year", .map [(discriminatorKey, .str "Integer")])])]) =
      .ok (.Object [("name", .String none), ("year", .Integer none)]) ∧
    validate sampleEngine
        (.Object [("name", .String none), ("year", .Integer none)])
        (.Object [("name", .String "Dilec"), ("year", .Integer 2018)]) =
      some (.ok ()) ∧
    validate sampleEngine
        (.Object [("name", .String none), ("year", .Integer none)])
        (.Object [("name", .String "Dilec")]) =
      some (.error (.MissingKey "year")) :=
  c7_builder_round_trip sampleEngine "name" "year" (by decide) (by decide)
    (by decide) "Dilec" 2018
